import Mathlib

/-!
# Verification of the gotham routing and dispatch core

Shallow embedding of the three source files of this repository:

* `middleware/under_development/workers/src/job.rs` — worker dispatch
  (`Job`, `PreparedJob`, `run_with_worker`);
* `src/middleware/mod.rs` — the `Middleware` trait and its continuation
  contract;
* `src/router/builder/mod.rs` — the route builder
  (`SingleRouteBuilder`, `to`, `to_new_handler`, `coerce`, scopes).

Code of the repository that the claims depend on but that is not among the
source files (the worker pool, the dispatcher fold, the segment tree, the
draw/replace builder modules, the query-string splitter) is modelled from the
specification; each such definition carries a doc comment starting with
`Modelled from the spec:`.
-/

namespace Gotham

/-- HTTP methods, as far as the claims need them (hyper's `Method` enum). -/
inductive Method where
  | get
  | post
  | put
  | delete
  | patch
  | head
  | options
  deriving DecidableEq, Repr

namespace Workers

/-- Shared heap of counters.  Embeds the `Arc<Mutex<usize>>` cells that both
the request `State` and a prepared job may reference: the cell contents live
here, and the `State` and the job hold indices into this heap. -/
abbrev Heap := List Nat

/-- The per-request `State` bag, restricted to the entries the workers code
touches: whether the `WorkersPool` middleware has put a pool into the state,
and the optional `ThreadSafeValue` slot holding the heap index of a shared
counter. -/
structure State where
  poolConfigured : Bool
  threadSafeValue : Option Nat
  deriving DecidableEq, Repr

/-- Embeds the `PreparedJob` trait from `job.rs`: a self-contained,
thread-transferable unit of work.  Its `run` may touch shared heap cells and
produces the job's `Item` or `Error`; it has no access to the `State`. -/
structure PreparedJob (Item Error : Type) where
  run : Heap → Heap × Except Error Item

/-- Embeds the `Job` trait from `job.rs`: `prepare` is called with mutable
access to the `State` (modelled as returning the possibly updated `State`
together with the prepared job). -/
structure Job (Item Error : Type) where
  prepare : State → State × PreparedJob Item Error

/-- Outcome of handing a job to the worker pool: either the process panics
(no pool was configured), or the pool completes with the final heap and the
job's outcome reunited with the request context. -/
inductive WorkerOutcome (Item Error : Type) where
  | panicked : WorkerOutcome Item Error
  | completed : Heap → Except (State × Error) (State × Item) → WorkerOutcome Item Error
  deriving Repr

/-- Modelled from the spec: `pool::run_in_thread_pool` is not under the source
files.  Per the spec it hands the prepared work to a bounded worker pool
thread for blocking execution and then reunites the outcome with the original
context, and invoking worker dispatch without a configured pool is a
programming error that panics the process. -/
def run_in_thread_pool {Item Error : Type} (h : Heap) (state : State)
    (f : Heap → Heap × Except Error Item) : WorkerOutcome Item Error :=
  if state.poolConfigured then
    let r := f h
    WorkerOutcome.completed r.1
      (match r.2 with
       | Except.ok a => Except.ok (state, a)
       | Except.error e => Except.error (state, e))
  else
    WorkerOutcome.panicked

/-- Embeds `run_with_worker` from `job.rs`: prepare the job on the calling
execution context (with mutable access to the state), then run the prepared
job on the worker pool. -/
def run_with_worker {Item Error : Type} (h : Heap) (state : State)
    (job : Job Item Error) : WorkerOutcome Item Error :=
  let p := job.prepare state
  run_in_thread_pool h p.1 (fun hp => p.2.run hp)

/-- Extracts the request context carried by a completed worker outcome. -/
def contextOf {Item Error : Type} : WorkerOutcome Item Error → Option State
  | WorkerOutcome.panicked => none
  | WorkerOutcome.completed _ (Except.ok (s, _)) => some s
  | WorkerOutcome.completed _ (Except.error (s, _)) => some s

/-- The `TestJob` of the workers tests: `prepare` clones the `ThreadSafeValue`
out of the state (the heap index of the shared counter; the tests always put
the value, so a missing slot is read as index 0), leaving the state untouched;
`run` increments the shared cell and yields `Ok(())`. -/
def testJob : Job Unit Unit :=
  { prepare := fun s =>
      (s,
       { run := fun h =>
           let i := s.threadSafeValue.getD 0
           (h.set i (h.getD i 0 + 1), Except.ok ()) }) }

/-- The closure job of `run_with_worker_closure_tests`: `prepare` captures
`x := 41` and the prepared closure returns `Ok(x + 1)`; the heap is
untouched. -/
def closureJob : Job Nat Unit :=
  { prepare := fun s => (s, { run := fun h => (h, Except.ok (41 + 1)) }) }

end Workers

namespace Pipe

/-- The per-request `State` bag, restricted to what the pipeline claims
observe: an execution trace recording which middleware and handler ran, in
order. -/
structure PState where
  log : List String
  deriving DecidableEq, Repr

/-- Requests are opaque to the pipeline machinery. -/
abbrev Request := String

/-- Responses are opaque to the pipeline machinery. -/
abbrev Response := String

/-- A resolved `HandlerFuture`: the `(State, Response)` pair. -/
abbrev HandlerResult := PState × Response

/-- The `Chain` continuation of `Middleware::call` from
`src/middleware/mod.rs`: `FnOnce(State, Request) -> Box<HandlerFuture>`. -/
abbrev Chain := PState → Request → HandlerResult

/-- Embeds the `Middleware` trait from `src/middleware/mod.rs`: `call` takes
the state, the request and the `chain` continuation, and either invokes the
continuation to pass the request on or produces a response itself. -/
abbrev Middleware := PState → Request → Chain → HandlerResult

/-- A terminal handler. -/
abbrev Handler := PState → Request → HandlerResult

/-- Modelled from the spec: the dispatcher (`router::route::dispatch`) is not
under the source files.  Per the spec it builds the run-the-handler
continuation and folds the pipeline chain from last to first, each pipeline
wrapping the continuation of the one after it. -/
def dispatch (pipeline : List Middleware) (handler : Handler) : Chain :=
  match pipeline with
  | [] => handler
  | m :: rest => fun s r => m s r (dispatch rest handler)

/-- A trace-recording middleware: it appends its name to the log, then either
invokes its continuation exactly once (`proceed = true`) or short-circuits
with a terminal response without invoking it (`proceed = false`). -/
def traceMw (nm : String) (proceed : Bool) : Middleware :=
  fun s r next =>
    let s2 : PState := { log := s.log ++ [nm] }
    if proceed then next s2 r else (s2, "short-circuit")

/-- A trace-recording terminal handler. -/
def traceHandler : Handler :=
  fun s _ => ({ log := s.log ++ ["handler"] }, "ok")

end Pipe

namespace Query

/-- Splits a character list into the groups delimited by `c`. -/
def splitOnChar (c : Char) : List Char → List (List Char)
  | [] => [[]]
  | a :: rest =>
      let r := splitOnChar c rest
      if a == c then [] :: r
      else
        match r with
        | [] => [[a]]
        | g :: gs => (a :: g) :: gs

/-- Modelled from the spec: `http::request::query_string::split` is not under
the source files.  Per the spec it parses the raw query string into a mapping
from key to ordered list of decoded values: split on the pair separator, then
each entry into key and value; the claims' inputs carry no percent escapes,
so form-url decoding leaves the text unchanged. -/
def splitQuery (q : Option String) : List (String × String) :=
  match q with
  | none => []
  | some s =>
      (splitOnChar '&' s.data).filterMap fun kv =>
        match splitOnChar '=' kv with
        | [k, v] => some (String.mk k, String.mk v)
        | _ => none

/-- The ordered list of values recorded for a key, as `mapping.get(key)` sees
them (an absent key yields the empty list). -/
def mappingGet (m : List (String × String)) (k : String) : List String :=
  (m.filter fun p => p.1 == k).map fun p => p.2

/-- The numeric value of a decimal digit character. -/
def digitVal (c : Char) : Option Nat :=
  let n := c.toNat
  if 48 ≤ n ∧ n ≤ 57 then some (n - 48) else none

/-- `u64::from_str`: decimal digits only (the claims' inputs carry no sign),
value within the u64 range. -/
def u64FromStr (s : String) : Option Nat :=
  match s.data with
  | [] => none
  | ds =>
      let step : Option Nat → Char → Option Nat := fun acc c =>
        match acc, digitVal c with
        | some n, some d => some (n * 10 + d)
        | _, _ => none
      match ds.foldl step (some 0) with
      | some n => if n < 2 ^ 64 then some n else none
      | none => none

/-- The two-field numeric structure of the builder tests. -/
structure AddParams where
  x : Nat
  y : Nat
  deriving DecidableEq, Repr

/-- The per-request `State` bag, restricted to the `AddParams` slot the query
extractor stores into. -/
structure QState where
  addParams : Option AddParams
  deriving DecidableEq, Repr

/-- Embeds `AddParams::extract` from the tests of `src/router/builder/mod.rs`:
split the query string, then for each of `x` and `y` take
`mapping.get(key).unwrap().first().unwrap().val()` and feed it to
`u64::from_str(s).unwrap()`.  Every `unwrap` — missing key, empty value list,
or failed numeric parse — is a panic, modelled as `none`; a normal return
stores the params into the state and yields `some (Except.ok _)`.  The
function has no path that returns `Except.error`. -/
def AddParams.extract (st : QState) (query : Option String) :
    Option (Except String QState) :=
  let mapping := splitQuery query
  let parse : String → Option Nat := fun k =>
    match (mappingGet mapping k).head? with
    | some s => u64FromStr s
    | none => none
  match parse "x", parse "y" with
  | some x, some y =>
      some (Except.ok { st with addParams := some { x := x, y := y } })
  | _, _ => none

end Query

namespace Builder

/-- The `Delegation` flag of a route: whether matching continues into a
nested sub-router mounted at the node. -/
inductive Delegation where
  | internal
  | external
  deriving DecidableEq, Repr

/-- Embeds the `NewHandler` trait: `new_handler()` produces a handler value
or an io error. -/
def NewHandler (H : Type) := Unit → Except String H

/-- Embeds `DispatcherImpl::new(new_handler, pipeline_chain, pipelines)` as
used by `to_new_handler`: the dispatcher binds the terminal handler factory
to the pipeline chain and the pipeline set.  (`DispatcherImpl` itself is not
under the source files; its constructor arguments are taken from the call in
`src/router/builder/mod.rs`.) -/
structure Dispatcher (C P H : Type) where
  new_handler : NewHandler H
  pipeline_chain : C
  pipelines : P

/-- `Extractors::new()`: the phantom extractor pair of a route; no runtime
data. -/
inductive Extractors where
  | new
  deriving DecidableEq, Repr

/-- Embeds `RouteImpl::new(matcher, dispatcher, extractors, delegation)` as
used by `to_new_handler` — the route record the node stores (boxed in the
source, so the extractor types are erased here as there). -/
structure StoredRoute (M C P H : Type) where
  matcher : M
  dispatcher : Dispatcher C P H
  extractors : Extractors
  delegation : Delegation

/-- The tree node under construction: its path from the root and the routes
terminating at it.  (`router::tree::node::NodeBuilder` is not under the
source files; the claims only need the node's identity and its routes.) -/
structure NodeBuilder (M C P H : Type) where
  segments : List String
  routes : List (StoredRoute M C P H)

/-- Modelled from the spec: `NodeBuilder::add_route` (`router::tree::node`)
is not under the source files; it records one more route terminating at this
node. -/
def NodeBuilder.add_route {M C P H : Type} (n : NodeBuilder M C P H)
    (r : StoredRoute M C P H) : NodeBuilder M C P H :=
  { n with routes := n.routes ++ [r] }

/-- `ResponseFinalizerBuilder::new()` — no claim touches finalizer
registration, so only its presence in `RouterBuilder` is kept. -/
inductive ResponseFinalizerBuilder where
  | new
  deriving DecidableEq, Repr

/-- Embeds `RouterBuilder` from `src/router/builder/mod.rs`. -/
structure RouterBuilder (M C P H : Type) where
  node_builder : NodeBuilder M C P H
  pipeline_chain : C
  pipelines : P
  response_finalizer_builder : ResponseFinalizerBuilder

/-- Embeds `ScopeBuilder` from `src/router/builder/mod.rs`. -/
structure ScopeBuilder (M C P H : Type) where
  node_builder : NodeBuilder M C P H
  pipeline_chain : C
  pipelines : P

/-- Embeds `SingleRouteBuilder` from `src/router/builder/mod.rs`; `PE` and
`QSE` are the declared extractor types, phantom as in the source
(`PhantomData<(PE, QSE)>`). -/
structure SingleRouteBuilder (M C P H : Type) (PE QSE : Type) where
  node_builder : NodeBuilder M C P H
  matcher : M
  pipeline_chain : C
  pipelines : P
  delegation : Delegation

/-- Embeds `DefineSingleRoute::to_new_handler`: build the dispatcher from the
handler factory and the builder's pipeline chain and set, build the route
from the builder's matcher, that dispatcher, fresh extractors and the
builder's delegation flag, and add it to the builder's node. -/
def SingleRouteBuilder.to_new_handler {M C P H PE QSE : Type}
    (b : SingleRouteBuilder M C P H PE QSE) (nh : NewHandler H) :
    NodeBuilder M C P H :=
  let dispatcher : Dispatcher C P H :=
    { new_handler := nh, pipeline_chain := b.pipeline_chain,
      pipelines := b.pipelines }
  let route : StoredRoute M C P H :=
    { matcher := b.matcher, dispatcher := dispatcher,
      extractors := Extractors.new, delegation := b.delegation }
  b.node_builder.add_route route

/-- Embeds `DefineSingleRoute::to`: `to(handler)` is
`to_new_handler(move || Ok(handler))`. -/
def SingleRouteBuilder.to {M C P H PE QSE : Type}
    (b : SingleRouteBuilder M C P H PE QSE) (handler : H) :
    NodeBuilder M C P H :=
  b.to_new_handler (fun _ => Except.ok handler)

/-- Embeds `SingleRouteBuilder::coerce`: rebuild the builder with the same
node, matcher, pipeline chain, pipeline set and delegation, at new phantom
extractor types. -/
def SingleRouteBuilder.coerce {M C P H PE QSE NPE NQSE : Type}
    (b : SingleRouteBuilder M C P H PE QSE) :
    SingleRouteBuilder M C P H NPE NQSE :=
  { node_builder := b.node_builder, matcher := b.matcher,
    pipeline_chain := b.pipeline_chain, pipelines := b.pipelines,
    delegation := b.delegation }

/-- Embeds `DefineSingleRoute::with_path_extractor::<NPE>()`; its `Output`
type (from the `replace` module, not under the source files) swaps only the
path-extractor type, and the implementation is `coerce`. -/
def SingleRouteBuilder.with_path_extractor {M C P H PE QSE : Type} (NPE : Type)
    (b : SingleRouteBuilder M C P H PE QSE) :
    SingleRouteBuilder M C P H NPE QSE :=
  b.coerce

/-- Embeds `DefineSingleRoute::with_query_string_extractor::<NQSE>()`; its
`Output` type swaps only the query-string-extractor type, and the
implementation is `coerce`. -/
def SingleRouteBuilder.with_query_string_extractor {M C P H PE QSE : Type}
    (NQSE : Type) (b : SingleRouteBuilder M C P H PE QSE) :
    SingleRouteBuilder M C P H PE NQSE :=
  b.coerce

/-- `NoopPathExtractor`: the default when a route declares no path
parameters. -/
inductive NoopPathExtractor where
  | mk
  deriving DecidableEq, Repr

/-- `NoopQueryStringExtractor`: the default when a route declares no query
parameters. -/
inductive NoopQueryStringExtractor where
  | mk
  deriving DecidableEq, Repr

/-- `DefaultSingleRouteBuilder`, as exported by the `draw` module. -/
abbrev DefaultSingleRouteBuilder (M C P H : Type) :=
  SingleRouteBuilder M C P H NoopPathExtractor NoopQueryStringExtractor

/-- Embeds `DrawRoutes::component_refs` for `RouterBuilder`: the node, the
pipeline chain and the pipeline set of the builder. -/
def RouterBuilder.component_refs {M C P H : Type} (b : RouterBuilder M C P H) :
    NodeBuilder M C P H × C × P :=
  (b.node_builder, b.pipeline_chain, b.pipelines)

/-- Embeds `DrawRoutes::component_refs` for `ScopeBuilder`. -/
def ScopeBuilder.component_refs {M C P H : Type} (b : ScopeBuilder M C P H) :
    NodeBuilder M C P H × C × P :=
  (b.node_builder, b.pipeline_chain, b.pipelines)

/-- Modelled from the spec: `DrawRoutes::scope` (`router/builder/draw.rs` is
not under the source files).  `scope(path, closure)` opens a nested
sub-builder rooted at the node for the path, sharing the enclosing builder's
pipeline chain and pipeline set. -/
def scopeFrom {M C P H : Type} (refs : NodeBuilder M C P H × C × P)
    (pathSegs : List String) : ScopeBuilder M C P H :=
  { node_builder := { segments := refs.1.segments ++ pathSegs, routes := [] },
    pipeline_chain := refs.2.1,
    pipelines := refs.2.2 }

/-- `scope` on the top-level builder. -/
def RouterBuilder.scope {M C P H : Type} (b : RouterBuilder M C P H)
    (pathSegs : List String) : ScopeBuilder M C P H :=
  scopeFrom b.component_refs pathSegs

/-- `scope` on a nested builder. -/
def ScopeBuilder.scope {M C P H : Type} (b : ScopeBuilder M C P H)
    (pathSegs : List String) : ScopeBuilder M C P H :=
  scopeFrom b.component_refs pathSegs

/-- Modelled from the spec: the route-opening methods of `DrawRoutes`
(`get`, `post`, … in `router/builder/draw.rs`, not under the source files)
yield a single-route builder for the node at the path, carrying the given
matcher, the drawer's pipeline chain and pipeline set, and internal
delegation; `get(path)` is `defineRoute` at a one-method GET matcher, and so
on. -/
def defineRoute {M C P H : Type} (refs : NodeBuilder M C P H × C × P)
    (matcher : M) (pathSegs : List String) : DefaultSingleRouteBuilder M C P H :=
  { node_builder := { segments := refs.1.segments ++ pathSegs, routes := [] },
    matcher := matcher,
    pipeline_chain := refs.2.1,
    pipelines := refs.2.2,
    delegation := Delegation.internal }

/-- `defineRoute` on a nested builder. -/
def ScopeBuilder.defineRoute {M C P H : Type} (b : ScopeBuilder M C P H)
    (matcher : M) (pathSegs : List String) : DefaultSingleRouteBuilder M C P H :=
  Builder.defineRoute b.component_refs matcher pathSegs

/-- `get(path)` on a nested builder, for the method-only matcher. -/
def ScopeBuilder.get {C P H : Type} (b : ScopeBuilder (List Method) C P H)
    (pathSegs : List String) : DefaultSingleRouteBuilder (List Method) C P H :=
  b.defineRoute [Method.get] pathSegs

end Builder

namespace Tree

/-- A route as the tree stores it: its method matcher (the methods a
`MethodOnlyRouteMatcher` accepts) and an identifier. -/
structure Route where
  methods : List Method
  rid : Nat
  deriving DecidableEq, Repr

/-- Modelled from the spec: the segment tree (`router::tree`) is not under the
source files.  A node holds its literal children (keys unique), at most one
dynamic child, at most one glob child, and the routes terminating at the
node.  Glob segments are trailing (`*name` is a trailing glob), so the glob
child carries only its routes. -/
inductive Node : Type where
  | mk : List (String × Node) → Option Node → Option (List Route) → List Route → Node

/-- The literal children of a node. -/
def Node.literals : Node → List (String × Node)
  | .mk l _ _ _ => l

/-- The dynamic (named-capture) child of a node, if any. -/
def Node.dyn : Node → Option Node
  | .mk _ d _ _ => d

/-- The routes of the trailing glob child of a node, if any. -/
def Node.globRoutes : Node → Option (List Route)
  | .mk _ _ g _ => g

/-- The routes terminating at a node. -/
def Node.routes : Node → List Route
  | .mk _ _ _ r => r

/-- `RouteMatcher::is_match` for the method-only matcher. -/
def routeMatches (m : Method) (r : Route) : Bool :=
  r.methods.contains m

/-- Routes at one node are tried in registration order; first matcher success
wins. -/
def firstMatch (m : Method) (rs : List Route) : Option Route :=
  rs.find? (routeMatches m)

/-- The methods registered by a list of routes, in registration order — the
allowed-methods set a method-not-allowed outcome exposes. -/
def allowedOf (rs : List Route) : List Method :=
  (rs.map Route.methods).flatten

/-- Modelled from the spec: the matching walk of the segment tree.  Walk the
path depth first, preferring a literal child, then the dynamic child, then
the glob child, backtracking when a branch yields no route; a route matches
when the path is fully consumed at a node (a trailing glob consuming any
remaining suffix, possibly empty) and the route's method matcher accepts the
method.  The second component collects the allowed methods of every
path-matching node whose routes all failed on the method, for the
method-not-allowed outcome. -/
def matchNode (m : Method) : Node → List String → Option Route × List Method
  | n, [] =>
      match firstMatch m n.routes with
      | some r => (some r, [])
      | none =>
          match n.globRoutes with
          | some g =>
              match firstMatch m g with
              | some r => (some r, [])
              | none => (none, allowedOf n.routes ++ allowedOf g)
          | none => (none, allowedOf n.routes)
  | n, seg :: rest =>
      let lit :=
        match n.literals.find? (fun p => p.1 == seg) with
        | some p => matchNode m p.2 rest
        | none => (none, [])
      match lit with
      | (some r, _) => (some r, [])
      | (none, aLit) =>
          let dy :=
            match n.dyn with
            | some c => matchNode m c rest
            | none => (none, [])
          match dy with
          | (some r, _) => (some r, [])
          | (none, aDyn) =>
              match n.globRoutes with
              | some g =>
                  match firstMatch m g with
                  | some r => (some r, [])
                  | none => (none, aLit ++ aDyn ++ allowedOf g)
              | none => (none, aLit ++ aDyn)

/-- The matched-route outcome codes of the router. -/
inductive MatchOutcome where
  | matched : Route → MatchOutcome
  | notFound : MatchOutcome
  | methodNotAllowed : List Method → MatchOutcome
  deriving DecidableEq, Repr

/-- Modelled from the spec: the tree lookup returns `Matched` on a route whose
matcher accepts the method, `MethodNotAllowed` with the collected allowed
methods when a node matches the path but no route's method predicate matches,
and `NotFound` when no path matches any node. -/
def matchTree (m : Method) (root : Node) (path : List String) : MatchOutcome :=
  match matchNode m root path with
  | (some r, _) => MatchOutcome.matched r
  | (none, []) => MatchOutcome.notFound
  | (none, a) => MatchOutcome.methodNotAllowed a

/-- Whether the path resolves to some node carrying at least one route (a
trailing glob child counting as such a node when it has routes). -/
def resolvesRouted : Node → List String → Bool
  | n, [] =>
      !n.routes.isEmpty ||
        (match n.globRoutes with
         | some g => !g.isEmpty
         | none => false)
  | n, seg :: rest =>
      (match n.literals.find? (fun p => p.1 == seg) with
       | some p => resolvesRouted p.2 rest
       | none => false) ||
      (match n.dyn with
       | some c => resolvesRouted c rest
       | none => false) ||
      (match n.globRoutes with
       | some g => !g.isEmpty
       | none => false)

/-- Well-formedness along a path: every route of a node the path can fully
reach registers at least one method — true of every route the builder can
produce, since `get`, `post`, … all install a one-method matcher. -/
def wfAlong : Node → List String → Prop
  | n, [] =>
      (∀ r ∈ n.routes, r.methods ≠ []) ∧
      (∀ g, n.globRoutes = some g → ∀ r ∈ g, r.methods ≠ [])
  | n, seg :: rest =>
      (∀ p ∈ n.literals, p.1 = seg → wfAlong p.2 rest) ∧
      (∀ c, n.dyn = some c → wfAlong c rest) ∧
      (∀ g, n.globRoutes = some g → ∀ r ∈ g, r.methods ≠ [])

end Tree

end Gotham

namespace Gotham

namespace Workers

/-- C1: For every job submitted via `run_with_worker`, the returned future
yields the request context paired with the job's result: on success the pair
`(context, item)`, on failure the pair `(context, error)` — the context being
exactly the one released by `prepare`, regardless of what the pool thread
computed. -/
theorem run_with_worker_reunites_context {Item Error : Type} (h : Heap) (s : State)
    (job : Job Item Error) (hp : (job.prepare s).1.poolConfigured = true) :
    (∀ (h2 : Heap) (a : Item), (job.prepare s).2.run h = (h2, Except.ok a) →
        run_with_worker h s job
          = WorkerOutcome.completed h2 (Except.ok ((job.prepare s).1, a)))
  ∧ (∀ (h2 : Heap) (e : Error), (job.prepare s).2.run h = (h2, Except.error e) →
        run_with_worker h s job
          = WorkerOutcome.completed h2 (Except.error ((job.prepare s).1, e))) := by
  constructor
  · intro h2 a hrun
    simp [run_with_worker, run_in_thread_pool, hp, hrun]
  · intro h2 e hrun
    simp [run_with_worker, run_in_thread_pool, hp, hrun]

/-- Witness for C1: the counter job of the workers tests, started with the
shared counter at 41, completes with the very context that was submitted, the
shared cell at 42 visible through that context's `ThreadSafeValue`; and the
closure job returns the context together with the item `41 + 1 = 42`. -/
theorem run_with_worker_reunites_context_witness :
    run_with_worker [41] (State.mk true (some 0)) testJob
        = WorkerOutcome.completed [42] (Except.ok (State.mk true (some 0), ()))
  ∧ run_with_worker [41] (State.mk true (some 0)) closureJob
        = WorkerOutcome.completed [41] (Except.ok (State.mk true (some 0), 42))
  ∧ [42].getD ((State.mk true (some 0)).threadSafeValue.getD 0) 0 = 42 := by
  refine ⟨?_, ?_, rfl⟩
  · exact (run_with_worker_reunites_context [41] (State.mk true (some 0)) testJob
      rfl).1 [42] () rfl
  · exact (run_with_worker_reunites_context [41] (State.mk true (some 0)) closureJob
      rfl).1 [41] 42 rfl

/-- C3: invoking worker dispatch on a context in which no worker pool has been
configured (and whose job preparation does not configure one) panics the
process; it never resolves into the future's error channel (no `completed`
outcome of any kind). -/
theorem run_with_worker_no_pool_panics {Item Error : Type} (h : Heap) (s : State)
    (job : Job Item Error) (hs : s.poolConfigured = false)
    (hp : (job.prepare s).1.poolConfigured = false) :
    run_with_worker h s job = WorkerOutcome.panicked
  ∧ ∀ (h2 : Heap) (r : Except (State × Error) (State × Item)),
      run_with_worker h s job ≠ WorkerOutcome.completed h2 r := by
  have hpan : run_with_worker h s job = WorkerOutcome.panicked := by
    simp [run_with_worker, run_in_thread_pool, hp]
  exact ⟨hpan, fun h2 r hc => by rw [hpan] at hc; exact WorkerOutcome.noConfusion hc⟩

/-- Witness for C3: the counter job on a context without a configured pool
panics. -/
theorem run_with_worker_no_pool_panics_witness :
    run_with_worker [41] (State.mk false (some 0)) testJob = WorkerOutcome.panicked :=
  (run_with_worker_no_pool_panics [41] (State.mk false (some 0)) testJob rfl rfl).1

/-- C6: `prepare` is executed synchronously on the calling execution context
(with mutable access to the state) before the job reaches the pool —
`run_with_worker` is exactly `run_in_thread_pool` applied to the post-prepare
context and the prepared job, whose `run` takes no state at all — and the
context returned to the caller is exactly the post-prepare context, untouched
by the worker thread, so it is owned by one side at a time. -/
theorem prepare_then_exclusive_ownership {Item Error : Type} (h : Heap) (s : State)
    (job : Job Item Error) (hp : (job.prepare s).1.poolConfigured = true) :
    run_with_worker h s job
        = run_in_thread_pool h (job.prepare s).1 (job.prepare s).2.run
  ∧ contextOf (run_with_worker h s job) = some (job.prepare s).1 := by
  constructor
  · rfl
  · simp only [run_with_worker, run_in_thread_pool, hp, if_true]
    cases h2 : ((job.prepare s).2.run h).2 <;> simp [contextOf, h2]

/-- Witness for C6 at the counter job of the workers tests. -/
theorem prepare_then_exclusive_ownership_witness :
    run_with_worker [41] (State.mk true (some 0)) testJob
        = run_in_thread_pool [41] (State.mk true (some 0))
            ((testJob.prepare (State.mk true (some 0))).2.run)
  ∧ contextOf (run_with_worker [41] (State.mk true (some 0)) testJob)
        = some (State.mk true (some 0)) := by
  have h := prepare_then_exclusive_ownership [41] (State.mk true (some 0)) testJob rfl
  exact ⟨h.1, h.2⟩

end Workers

namespace Pipe

/-- C2: for a pipeline chain `[P1, P2]` bound to a route, if `P1`
short-circuits (does not invoke its continuation) then `P2` and the handler
never execute — the trace ends at `P1` — and if both `P1` and `P2` invoke
their continuations, execution occurs strictly in the order `P1`, then `P2`,
then the handler, each completing before the next begins, as the trace
records. -/
theorem pipeline_order_and_short_circuit (b1 b2 : Bool) (s : PState) (r : Request) :
    (b1 = false →
      (dispatch [traceMw "P1" b1, traceMw "P2" b2] traceHandler s r).1.log
        = s.log ++ ["P1"])
  ∧ (b1 = true → b2 = false →
      (dispatch [traceMw "P1" b1, traceMw "P2" b2] traceHandler s r).1.log
        = s.log ++ ["P1", "P2"])
  ∧ (b1 = true → b2 = true →
      (dispatch [traceMw "P1" b1, traceMw "P2" b2] traceHandler s r).1.log
        = s.log ++ ["P1", "P2", "handler"]) := by
  refine ⟨fun h1 => ?_, fun h1 h2 => ?_, fun h1 h2 => ?_⟩
  · subst h1
    simp [dispatch, traceMw, traceHandler]
  · subst h1; subst h2
    simp [dispatch, traceMw, traceHandler]
  · subst h1; subst h2
    simp [dispatch, traceMw, traceHandler]

/-- Witness for C2: with both pipelines proceeding the trace is exactly
`P1`, `P2`, `handler`; with `P1` short-circuiting it is exactly `P1`. -/
theorem pipeline_order_and_short_circuit_witness :
    (dispatch [traceMw "P1" true, traceMw "P2" true] traceHandler
        (PState.mk []) "req").1.log = ["P1", "P2", "handler"]
  ∧ (dispatch [traceMw "P1" false, traceMw "P2" true] traceHandler
        (PState.mk []) "req").1.log = ["P1"] := by
  constructor
  · have h := (pipeline_order_and_short_circuit true true (PState.mk []) "req").2.2 rfl rfl
    simpa using h
  · have h := (pipeline_order_and_short_circuit false true (PState.mk []) "req").1 rfl
    simpa using h

end Pipe

namespace Query

/-- C4 (evaluation of the source at the claim's inputs): on `x=16&y=71` the
extractor succeeds and stores `x = 16, y = 71` into the context; on
`x=abc&y=71` it panics via `unwrap()` on the failed `u64::from_str`
(modelled as `none`) instead of returning the decode error the claim
describes — the extractor has no error-returning path at all. -/
theorem add_params_extract_eval :
    AddParams.extract (QState.mk none) (some "x=16&y=71")
        = some (Except.ok (QState.mk (some (AddParams.mk 16 71))))
  ∧ AddParams.extract (QState.mk none) (some "x=abc&y=71") = none := by
  constructor <;> rfl

end Query

namespace Builder

/-- C7: finalizing a route through `to_new_handler` adds exactly one route to
the builder's current tree node — the node's identity is unchanged and its
route list grows by the single route whose dispatcher binds the given handler
factory to the builder's pipeline chain and pipeline set, and which carries
the builder's matcher and delegation flag. -/
theorem to_new_handler_adds_single_route {M C P H PE QSE : Type}
    (b : SingleRouteBuilder M C P H PE QSE) (nh : NewHandler H) :
    (b.to_new_handler nh).segments = b.node_builder.segments
  ∧ (b.to_new_handler nh).routes
      = b.node_builder.routes
          ++ [{ matcher := b.matcher,
                dispatcher :=
                  { new_handler := nh, pipeline_chain := b.pipeline_chain,
                    pipelines := b.pipelines },
                extractors := Extractors.new,
                delegation := b.delegation }]
  ∧ (b.to_new_handler nh).routes.length = b.node_builder.routes.length + 1 := by
  refine ⟨rfl, rfl, ?_⟩
  simp [SingleRouteBuilder.to_new_handler, NodeBuilder.add_route]

/-- C9: `to(handler)` is `to_new_handler` of the factory that always returns
`Ok(handler)` — the two produce the same node, holding the same added route:
same dispatcher construction, same matcher, same extractors, same
delegation. -/
theorem to_eq_to_new_handler_of_ok {M C P H PE QSE : Type}
    (b : SingleRouteBuilder M C P H PE QSE) (h : H) :
    b.to h = b.to_new_handler (fun _ => Except.ok h)
  ∧ (b.to h).routes
      = b.node_builder.routes
          ++ [{ matcher := b.matcher,
                dispatcher :=
                  { new_handler := fun _ => Except.ok h,
                    pipeline_chain := b.pipeline_chain,
                    pipelines := b.pipelines },
                extractors := Extractors.new,
                delegation := b.delegation }] :=
  ⟨rfl, rfl⟩

/-- C8: a nested builder opened by `scope` shares the enclosing builder's
pipeline chain and pipeline set as they were when the scope was opened, and
every route defined through the scope — directly or through a nested scope —
is bound to exactly that chain and set. -/
theorem scope_shares_enclosing_chain {M C P H : Type} (b : RouterBuilder M C P H)
    (pfxSegs pathSegs : List String) (matcher : M) (nh : NewHandler H) :
    (b.scope pfxSegs).pipeline_chain = b.pipeline_chain
  ∧ (b.scope pfxSegs).pipelines = b.pipelines
  ∧ (((b.scope pfxSegs).defineRoute matcher pathSegs).to_new_handler nh).routes
      = [{ matcher := matcher,
           dispatcher :=
             { new_handler := nh, pipeline_chain := b.pipeline_chain,
               pipelines := b.pipelines },
           extractors := Extractors.new,
           delegation := Delegation.internal }]
  ∧ ((b.scope pfxSegs).scope pathSegs).pipeline_chain = b.pipeline_chain
  ∧ ((b.scope pfxSegs).scope pathSegs).pipelines = b.pipelines :=
  ⟨rfl, rfl, rfl, rfl, rfl⟩

/-- C10: `with_path_extractor` and `with_query_string_extractor` change only
the declared extractor types — the target tree node, the matcher, the
pipeline chain, the pipeline set and the delegation flag of the resulting
builder are those of the original builder. -/
theorem with_extractor_changes_only_types {M C P H PE QSE NPE NQSE : Type}
    (b : SingleRouteBuilder M C P H PE QSE) :
    ((b.with_path_extractor NPE).node_builder = b.node_builder
      ∧ (b.with_path_extractor NPE).matcher = b.matcher
      ∧ (b.with_path_extractor NPE).pipeline_chain = b.pipeline_chain
      ∧ (b.with_path_extractor NPE).pipelines = b.pipelines
      ∧ (b.with_path_extractor NPE).delegation = b.delegation)
  ∧ ((b.with_query_string_extractor NQSE).node_builder = b.node_builder
      ∧ (b.with_query_string_extractor NQSE).matcher = b.matcher
      ∧ (b.with_query_string_extractor NQSE).pipeline_chain = b.pipeline_chain
      ∧ (b.with_query_string_extractor NQSE).pipelines = b.pipelines
      ∧ (b.with_query_string_extractor NQSE).delegation = b.delegation) :=
  ⟨⟨rfl, rfl, rfl, rfl, rfl⟩, ⟨rfl, rfl, rfl, rfl, rfl⟩⟩

end Builder

namespace Tree

theorem allowedOf_eq_nil {rs : List Route} (h : allowedOf rs = [])
    (hwf : ∀ r ∈ rs, r.methods ≠ []) : rs = [] := by
  cases rs with
  | nil => rfl
  | cons r tl =>
      exfalso
      simp only [allowedOf, List.map_cons, List.flatten_cons, List.append_eq_nil] at h
      exact hwf r (List.mem_cons_self r tl) h.1

theorem notFound_no_routed (path : List String) : ∀ (n : Node) (m : Method),
    wfAlong n path → matchNode m n path = (none, []) → resolvesRouted n path = false := by
  induction path with
  | nil =>
      intro n m hwf hmn
      rcases hwf with ⟨hwr, hwg⟩
      rcases h1 : firstMatch m n.routes with _ | r
      · rcases hg : n.globRoutes with _ | g
        · simp only [matchNode, h1, hg, Prod.mk.injEq] at hmn
          have hr : n.routes = [] := allowedOf_eq_nil hmn.2 hwr
          simp [resolvesRouted, hr, hg]
        · rcases h2 : firstMatch m g with _ | r2
          · simp only [matchNode, h1, hg, h2, Prod.mk.injEq, List.append_eq_nil] at hmn
            have hr : n.routes = [] := allowedOf_eq_nil hmn.2.1 hwr
            have hgr : g = [] := allowedOf_eq_nil hmn.2.2 (hwg g hg)
            simp [resolvesRouted, hr, hg, hgr]
          · simp [matchNode, h1, hg, h2] at hmn
      · simp [matchNode, h1] at hmn
  | cons seg rest ih =>
      intro n m hwf hmn
      rcases hwf with ⟨hwl, hwd, hwg⟩
      rcases hf : n.literals.find? (fun p => p.1 == seg) with _ | p
      · -- no literal child matches the segment
        rcases hd : n.dyn with _ | c
        · rcases hg : n.globRoutes with _ | g
          · simp [resolvesRouted, hf, hd, hg]
          · rcases hgm : firstMatch m g with _ | r
            · simp only [matchNode, hf, hd, hg, hgm, Prod.mk.injEq, List.nil_append,
                List.append_eq_nil] at hmn
              have hge : g = [] := allowedOf_eq_nil hmn.2 (hwg g hg)
              simp [resolvesRouted, hf, hd, hg, hge]
            · simp [matchNode, hf, hd, hg, hgm] at hmn
        · rcases hdm : matchNode m c rest with ⟨rd, ad⟩
          rcases rd with _ | r
          · rcases hg : n.globRoutes with _ | g
            · simp only [matchNode, hf, hd, hg, hdm, Prod.mk.injEq, List.nil_append,
                List.append_nil] at hmn
              have hdr : resolvesRouted c rest = false :=
                ih c m (hwd c hd) (by rw [hdm, hmn.2])
              simp [resolvesRouted, hf, hd, hg, hdr]
            · rcases hgm : firstMatch m g with _ | r
              · simp only [matchNode, hf, hd, hg, hdm, hgm, Prod.mk.injEq, List.nil_append,
                  List.append_eq_nil] at hmn
                have hge : g = [] := allowedOf_eq_nil hmn.2.2 (hwg g hg)
                have hdr : resolvesRouted c rest = false :=
                  ih c m (hwd c hd) (by rw [hdm, hmn.2.1])
                simp [resolvesRouted, hf, hd, hg, hge, hdr]
              · simp [matchNode, hf, hd, hg, hdm, hgm] at hmn
          · simp [matchNode, hf, hd, hdm] at hmn
      · -- a literal child matches the segment
        have hpmem : p ∈ n.literals := List.mem_of_find?_eq_some hf
        have hpseg : p.1 = seg := by simpa using List.find?_some hf
        rcases hlm : matchNode m p.2 rest with ⟨rl, al⟩
        rcases rl with _ | r
        · have hlr : resolvesRouted p.2 rest = false → True := fun _ => trivial
          rcases hd : n.dyn with _ | c
          · rcases hg : n.globRoutes with _ | g
            · simp only [matchNode, hf, hd, hg, hlm, Prod.mk.injEq, List.append_nil] at hmn
              have hpr : resolvesRouted p.2 rest = false :=
                ih p.2 m (hwl p hpmem hpseg) (by rw [hlm, hmn.2])
              simp [resolvesRouted, hf, hd, hg, hpr]
            · rcases hgm : firstMatch m g with _ | r
              · simp only [matchNode, hf, hd, hg, hlm, hgm, Prod.mk.injEq, List.append_nil,
                  List.append_eq_nil] at hmn
                have hge : g = [] := allowedOf_eq_nil hmn.2.2 (hwg g hg)
                have hpr : resolvesRouted p.2 rest = false :=
                  ih p.2 m (hwl p hpmem hpseg) (by rw [hlm, hmn.2.1])
                simp [resolvesRouted, hf, hd, hg, hge, hpr]
              · simp [matchNode, hf, hd, hg, hlm, hgm] at hmn
          · rcases hdm : matchNode m c rest with ⟨rd, ad⟩
            rcases rd with _ | r
            · rcases hg : n.globRoutes with _ | g
              · simp only [matchNode, hf, hd, hg, hlm, hdm, Prod.mk.injEq,
                  List.append_nil, List.append_eq_nil] at hmn
                have hpr : resolvesRouted p.2 rest = false :=
                  ih p.2 m (hwl p hpmem hpseg) (by rw [hlm, hmn.2.1])
                have hdr : resolvesRouted c rest = false :=
                  ih c m (hwd c hd) (by rw [hdm, hmn.2.2])
                simp [resolvesRouted, hf, hd, hg, hpr, hdr]
              · rcases hgm : firstMatch m g with _ | r
                · simp only [matchNode, hf, hd, hg, hlm, hdm, hgm, Prod.mk.injEq,
                    List.append_eq_nil] at hmn
                  have hge : g = [] := allowedOf_eq_nil hmn.2.2 (hwg g hg)
                  have hpr : resolvesRouted p.2 rest = false :=
                    ih p.2 m (hwl p hpmem hpseg) (by rw [hlm, hmn.2.1.1])
                  have hdr : resolvesRouted c rest = false :=
                    ih c m (hwd c hd) (by rw [hdm, hmn.2.1.2])
                  simp [resolvesRouted, hf, hd, hg, hge, hpr, hdr]
                · simp [matchNode, hf, hd, hg, hlm, hdm, hgm] at hmn
            · simp [matchNode, hf, hd, hlm, hdm] at hmn
        · simp [matchNode, hf, hlm] at hmn

/-- C5: registering two routes with different method matchers at one tree
node, a request reaching that node with a method matched by neither returns a
method-not-allowed outcome carrying exactly the registered methods, not
not-found; and not-found arises only when the path resolves to no routed
node. -/
theorem same_node_method_not_allowed (ms1 ms2 : List Method) (m : Method)
    (h1 : m ∉ ms1) (h2 : m ∉ ms2) (hne : ms1 ≠ []) :
    matchTree m
        (Node.mk [("a", Node.mk [] none none [Route.mk ms1 0, Route.mk ms2 1])]
          none none [])
        ["a"]
      = MatchOutcome.methodNotAllowed (ms1 ++ ms2)
  ∧ (∀ (n : Node) (path : List String) (mm : Method),
      wfAlong n path → matchTree mm n path = MatchOutcome.notFound →
        resolvesRouted n path = false) := by
  constructor
  · cases ms1 with
    | nil => exact absurd rfl hne
    | cons a tl =>
        obtain ⟨hma, hmtl⟩ : m ≠ a ∧ m ∉ tl := by
          simpa [List.mem_cons, not_or] using h1
        simp [matchTree, matchNode, firstMatch, routeMatches, allowedOf,
          List.find?, Node.literals, Node.dyn, Node.globRoutes, Node.routes,
          hma, hmtl, h2]
  · intro n path mm hwf hnf
    apply notFound_no_routed path n mm hwf
    rcases hmn : matchNode mm n path with ⟨ro, a⟩
    rcases ro with _ | r
    · rcases a with _ | ⟨x, xs⟩
      · rfl
      · simp [matchTree, hmn] at hnf
    · simp [matchTree, hmn] at hnf

/-- Witness for C5: GET and POST registered at the node for path `a`; a
DELETE request for `a` is answered method-not-allowed listing exactly GET and
POST. -/
theorem same_node_method_not_allowed_witness :
    matchTree Method.delete
        (Node.mk
          [("a", Node.mk [] none none [Route.mk [Method.get] 0, Route.mk [Method.post] 1])]
          none none [])
        ["a"]
      = MatchOutcome.methodNotAllowed [Method.get, Method.post] := by
  have h := same_node_method_not_allowed [Method.get] [Method.post] Method.delete
    (by decide) (by decide) (by decide)
  simpa using h.1

end Tree

end Gotham
